import Mathlib

/-!
Verification of the cfctl login/config core (src/cmd/other/login.go and
src/cmd/other/config.go) against its natural-language specification.

The Go code is shallowly embedded: byte strings become `List Nat` (each
element a byte value), text becomes `String` or `List Char`, fallible
operations return `Option`/`Except`, and the login orchestration in
`executeUserLogin` becomes a pure function over an oracle describing the
results of the remote RPC calls, producing a terminal result plus a trace
of observable events (RPC calls, prompts, credential persistence).
-/

/-! ## Byte-level helpers -/

/-- Bytewise xor of two byte lists, truncating to the shorter length
(the shape of Go's `xorBytes` used by `cipher.StreamCipher.XORKeyStream`). -/
def xorBytes (a b : List Nat) : List Nat := List.zipWith (fun x y => x ^^^ y) a b

theorem xorBytes_length (a b : List Nat) :
    (xorBytes a b).length = min a.length b.length := by
  simp [xorBytes]

theorem xorBytes_cancel : ∀ (a k : List Nat), a.length ≤ k.length →
    xorBytes (xorBytes a k) k = a
  | [], _, _ => rfl
  | _ :: _, [], h => by simp at h
  | a :: as, k0 :: ks, h => by
    simp only [xorBytes, List.zipWith_cons_cons]
    refine congrArg₂ _ (Nat.xor_cancel_right _ _) ?_
    exact xorBytes_cancel as ks (by simpa using h)

theorem byte_xor_lt {x y : Nat} (hx : x < 256) (hy : y < 256) : x ^^^ y < 256 := by
  have h8 : (256 : Nat) = 2 ^ 8 := by norm_num
  rw [h8] at hx hy ⊢
  exact Nat.bitwise_lt hx hy

theorem mem_xorBytes_lt : ∀ (a k : List Nat), (∀ x ∈ a, x < 256) →
    (∀ x ∈ k, x < 256) → ∀ b ∈ xorBytes a k, b < 256
  | [], _, _, _, b, hb => by simp [xorBytes] at hb
  | _ :: _, [], _, _, b, hb => by simp [xorBytes] at hb
  | a :: as, k0 :: ks, ha, hk, b, hb => by
    simp only [xorBytes, List.zipWith_cons_cons, List.mem_cons] at hb
    rcases hb with hb | hb
    · subst hb
      exact byte_xor_lt (ha a (by simp)) (hk k0 (by simp))
    · exact mem_xorBytes_lt as ks (fun x hx => ha x (by simp [hx]))
        (fun x hx => hk x (by simp [hx])) b hb

/-! ## Base64 (Go `base64.URLEncoding`: URL-safe alphabet, `=` padding) -/

/-- The URL-safe base64 alphabet used by Go's `base64.URLEncoding`. -/
def b64Alphabet : List Char :=
  ['A', 'B', 'C', 'D', 'E', 'F', 'G', 'H', 'I', 'J', 'K', 'L', 'M',
   'N', 'O', 'P', 'Q', 'R', 'S', 'T', 'U', 'V', 'W', 'X', 'Y', 'Z',
   'a', 'b', 'c', 'd', 'e', 'f', 'g', 'h', 'i', 'j', 'k', 'l', 'm',
   'n', 'o', 'p', 'q', 'r', 's', 't', 'u', 'v', 'w', 'x', 'y', 'z',
   '0', '1', '2', '3', '4', '5', '6', '7', '8', '9', '-', '_']

/-- Character for a 6-bit value. -/
def encB64 (n : Nat) : Char := b64Alphabet.getD n 'A'

def decB64Aux : List Char → Char → Nat → Option Nat
  | [], _, _ => none
  | a :: rest, c, i => if a = c then some i else decB64Aux rest c (i + 1)

/-- 6-bit value of an alphabet character (`none` for characters outside the
alphabet, such as `=` or `!`). -/
def decB64 (c : Char) : Option Nat := decB64Aux b64Alphabet c 0

/-- Base64 encoding of a byte list, three bytes at a time, with `=` padding,
as Go's `Encoding.EncodeToString`. -/
def b64encode : List Nat → List Char
  | [] => []
  | [b1] => [encB64 (b1 / 4), encB64 (b1 % 4 * 16), '=', '=']
  | [b1, b2] => [encB64 (b1 / 4), encB64 (b1 % 4 * 16 + b2 / 16),
                 encB64 (b2 % 16 * 4), '=']
  | b1 :: b2 :: b3 :: rest =>
    encB64 (b1 / 4) :: encB64 (b1 % 4 * 16 + b2 / 16) ::
    encB64 (b2 % 16 * 4 + b3 / 64) :: encB64 (b3 % 64) :: b64encode rest

/-- Base64 decoding, four characters at a time, as Go's
`Encoding.DecodeString`: a quantum with a padding character must be final,
any other malformed input is an error (`none`). -/
def b64decode : List Char → Option (List Nat)
  | [] => some []
  | c1 :: c2 :: c3 :: c4 :: rest =>
    match decB64 c1, decB64 c2 with
    | some v1, some v2 =>
      if c3 = '=' then
        if c4 = '=' ∧ rest = [] then some [v1 * 4 + v2 / 16] else none
      else
        match decB64 c3 with
        | some v3 =>
          if c4 = '=' then
            if rest = [] then some [v1 * 4 + v2 / 16, v2 % 16 * 16 + v3 / 4]
            else none
          else
            match decB64 c4, b64decode rest with
            | some v4, some bs =>
              some ((v1 * 4 + v2 / 16) :: (v2 % 16 * 16 + v3 / 4) ::
                    (v3 % 4 * 64 + v4) :: bs)
            | _, _ => none
        | none => none
    | _, _ => none
  | _ => none

theorem decB64_encB64 : ∀ v : Fin 64, decB64 (encB64 v.val) = some v.val := by decide

theorem encB64_ne_pad : ∀ v : Fin 64, encB64 v.val ≠ '=' := by decide

theorem decB64_encB64_lt {v : Nat} (h : v < 64) : decB64 (encB64 v) = some v :=
  decB64_encB64 ⟨v, h⟩

theorem encB64_ne_pad_lt {v : Nat} (h : v < 64) : encB64 v ≠ '=' :=
  encB64_ne_pad ⟨v, h⟩

theorem b64_roundtrip : ∀ l : List Nat, (∀ b ∈ l, b < 256) →
    b64decode (b64encode l) = some l
  | [], _ => rfl
  | [b1], h => by
    have hb1 : b1 < 256 := h b1 (by simp)
    have h1 : b1 / 4 * 4 + b1 % 4 * 16 / 16 = b1 := by omega
    simp only [b64encode, b64decode, decB64_encB64_lt (show b1 / 4 < 64 by omega),
      decB64_encB64_lt (show b1 % 4 * 16 < 64 by omega), if_pos rfl, and_self,
      ite_true, h1]
  | [b1, b2], h => by
    have hb1 : b1 < 256 := h b1 (by simp)
    have hb2 : b2 < 256 := h b2 (by simp)
    have h1 : b1 / 4 * 4 + (b1 % 4 * 16 + b2 / 16) / 16 = b1 := by omega
    have h2 : (b1 % 4 * 16 + b2 / 16) % 16 * 16 + b2 % 16 * 4 / 4 = b2 := by omega
    simp only [b64encode, b64decode,
      decB64_encB64_lt (show b1 / 4 < 64 by omega),
      decB64_encB64_lt (show b1 % 4 * 16 + b2 / 16 < 64 by omega),
      decB64_encB64_lt (show b2 % 16 * 4 < 64 by omega),
      if_neg (encB64_ne_pad_lt (show b2 % 16 * 4 < 64 by omega)),
      if_pos rfl, ite_true, h1, h2]
  | b1 :: b2 :: b3 :: rest, h => by
    have hb1 : b1 < 256 := h b1 (by simp)
    have hb2 : b2 < 256 := h b2 (by simp)
    have hb3 : b3 < 256 := h b3 (by simp)
    have ih := b64_roundtrip rest (fun b hb => h b (by simp [hb]))
    have h1 : b1 / 4 * 4 + (b1 % 4 * 16 + b2 / 16) / 16 = b1 := by omega
    have h2 : (b1 % 4 * 16 + b2 / 16) % 16 * 16 + (b2 % 16 * 4 + b3 / 64) / 4 = b2 := by
      omega
    have h3 : (b2 % 16 * 4 + b3 / 64) % 4 * 64 + b3 % 64 = b3 := by omega
    simp only [b64encode, b64decode,
      decB64_encB64_lt (show b1 / 4 < 64 by omega),
      decB64_encB64_lt (show b1 % 4 * 16 + b2 / 16 < 64 by omega),
      decB64_encB64_lt (show b2 % 16 * 4 + b3 / 64 < 64 by omega),
      decB64_encB64_lt (show b3 % 64 < 64 by omega),
      if_neg (encB64_ne_pad_lt (show b2 % 16 * 4 + b3 / 64 < 64 by omega)),
      if_neg (encB64_ne_pad_lt (show b3 % 64 < 64 by omega)),
      ih, h1, h2, h3]

/-! ## CFB stream cipher (Go `cipher.NewCFBEncrypter` / `NewCFBDecrypter`)

The AES block encryption under the fixed vault key is abstracted as a
function `E` from 16-byte registers to 16-byte keystream blocks. Recursion
uses an explicit fuel counter (always instantiated with the input length)
so that the definitions compute by `decide`/`rfl`. -/

def cfbEncryptAux (E : List Nat → List Nat) : Nat → List Nat → List Nat → List Nat
  | 0, _, _ => []
  | fuel + 1, reg, p =>
    if p = [] then []
    else
      let c := xorBytes (p.take 16) (E reg)
      c ++ cfbEncryptAux E fuel c (p.drop 16)

def cfbDecryptAux (E : List Nat → List Nat) : Nat → List Nat → List Nat → List Nat
  | 0, _, _ => []
  | fuel + 1, reg, c =>
    if c = [] then []
    else
      let chunk := c.take 16
      xorBytes chunk (E reg) ++ cfbDecryptAux E fuel chunk (c.drop 16)

/-- CFB encryption of a byte string: the register starts at the IV and is
refilled with each full ciphertext block, as in Go's `cfb.XORKeyStream`. -/
def cfbEncryptBytes (E : List Nat → List Nat) (reg p : List Nat) : List Nat :=
  cfbEncryptAux E p.length reg p

def cfbDecryptBytes (E : List Nat → List Nat) (reg c : List Nat) : List Nat :=
  cfbDecryptAux E c.length reg c

theorem cfbEncryptAux_nil (E : List Nat → List Nat) (fuel : Nat) (reg : List Nat) :
    cfbEncryptAux E fuel reg [] = [] := by
  cases fuel <;> simp [cfbEncryptAux]

theorem cfbDecryptAux_nil (E : List Nat → List Nat) (fuel : Nat) (reg : List Nat) :
    cfbDecryptAux E fuel reg [] = [] := by
  cases fuel <;> simp [cfbDecryptAux]

theorem cfbEncryptAux_length (E : List Nat → List Nat)
    (hE : ∀ r, (E r).length = 16) :
    ∀ (fuel : Nat) (reg p : List Nat), p.length ≤ fuel →
      (cfbEncryptAux E fuel reg p).length = p.length := by
  intro fuel
  induction fuel with
  | zero =>
    intro reg p hp
    have : p = [] := List.length_eq_zero.mp (Nat.le_zero.mp hp)
    simp [this, cfbEncryptAux]
  | succ n ih =>
    intro reg p hp
    by_cases hnil : p = []
    · simp [hnil, cfbEncryptAux]
    · have hpos : 0 < p.length := List.length_pos.mpr hnil
      simp only [cfbEncryptAux, if_neg hnil, List.length_append]
      rw [ih (xorBytes (p.take 16) (E reg)) (p.drop 16) (by rw [List.length_drop]; omega)]
      rw [xorBytes_length, hE, List.length_take, List.length_drop]
      omega

theorem cfbDecryptAux_length (E : List Nat → List Nat)
    (hE : ∀ r, (E r).length = 16) :
    ∀ (fuel : Nat) (reg c : List Nat), c.length ≤ fuel →
      (cfbDecryptAux E fuel reg c).length = c.length := by
  intro fuel
  induction fuel with
  | zero =>
    intro reg c hc
    have : c = [] := List.length_eq_zero.mp (Nat.le_zero.mp hc)
    simp [this, cfbDecryptAux]
  | succ n ih =>
    intro reg c hc
    by_cases hnil : c = []
    · simp [hnil, cfbDecryptAux]
    · have hpos : 0 < c.length := List.length_pos.mpr hnil
      simp only [cfbDecryptAux, if_neg hnil, List.length_append]
      rw [ih (c.take 16) (c.drop 16) (by rw [List.length_drop]; omega)]
      rw [xorBytes_length, hE, List.length_take, List.length_drop]
      omega

theorem cfb_roundtrip_aux (E : List Nat → List Nat)
    (hE : ∀ r, (E r).length = 16) :
    ∀ (fuel : Nat) (reg p : List Nat), p.length ≤ fuel →
      cfbDecryptAux E fuel reg (cfbEncryptAux E fuel reg p) = p := by
  intro fuel
  induction fuel with
  | zero =>
    intro reg p hp
    have : p = [] := List.length_eq_zero.mp (Nat.le_zero.mp hp)
    simp [this, cfbEncryptAux, cfbDecryptAux]
  | succ n ih =>
    intro reg p hp
    by_cases hnil : p = []
    · simp [hnil, cfbEncryptAux, cfbDecryptAux]
    · have hpos : 0 < p.length := List.length_pos.mpr hnil
      have htk : (p.take 16).length = min 16 p.length := List.length_take 16 p
      have hclen : (xorBytes (p.take 16) (E reg)).length = min 16 p.length := by
        rw [xorBytes_length, hE, htk]
        omega
      set c := xorBytes (p.take 16) (E reg) with hc
      have hcne : c ≠ [] := by
        intro habs
        have h0 : c.length = 0 := by rw [habs]; rfl
        rw [hclen] at h0
        omega
      simp only [cfbEncryptAux, if_neg hnil]
      by_cases hble : p.length ≤ 16
      · have hdrop : p.drop 16 = [] := List.drop_eq_nil_of_le hble
        rw [hdrop, cfbEncryptAux_nil, List.append_nil]
        have hcle : c.length ≤ 16 := by omega
        simp only [cfbDecryptAux, if_neg hcne]
        rw [List.take_of_length_le hcle, List.drop_eq_nil_of_le hcle,
          cfbDecryptAux_nil, List.append_nil, hc,
          xorBytes_cancel _ _ (by rw [htk, hE]; omega),
          List.take_of_length_le hble]
      · have hc16 : c.length = 16 := by omega
        have hagne : c ++ cfbEncryptAux E n c (p.drop 16) ≠ [] := by
          simp [hcne]
        simp only [cfbDecryptAux, if_neg hagne]
        rw [List.take_left' hc16, List.drop_left' hc16, hc,
          xorBytes_cancel _ _ (by rw [htk, hE]; omega),
          ih c (p.drop 16) (by rw [List.length_drop]; omega),
          List.take_append_drop]

theorem cfb_bytes_roundtrip (E : List Nat → List Nat)
    (hE : ∀ r, (E r).length = 16) (reg p : List Nat) :
    cfbDecryptBytes E reg (cfbEncryptBytes E reg p) = p := by
  unfold cfbDecryptBytes cfbEncryptBytes
  rw [cfbEncryptAux_length E hE p.length reg p (Nat.le_refl _)]
  exact cfb_roundtrip_aux E hE p.length reg p (Nat.le_refl _)

theorem cfbEncryptAux_mem_lt (E : List Nat → List Nat)
    (hEb : ∀ r, ∀ b ∈ E r, b < 256) :
    ∀ (fuel : Nat) (reg p : List Nat), (∀ b ∈ p, b < 256) →
      ∀ b ∈ cfbEncryptAux E fuel reg p, b < 256 := by
  intro fuel
  induction fuel with
  | zero => intro reg p _ b hb; simp [cfbEncryptAux] at hb
  | succ n ih =>
    intro reg p hpb b hb
    by_cases hnil : p = []
    · simp [hnil, cfbEncryptAux] at hb
    · simp only [cfbEncryptAux, if_neg hnil, List.mem_append] at hb
      rcases hb with hb | hb
      · exact mem_xorBytes_lt _ _ (fun x hx => hpb x (List.mem_of_mem_take hx))
          (hEb reg) b hb
      · exact ih _ _ (fun x hx => hpb x (List.mem_of_mem_drop hx)) b hb

/-! ## The vault `encrypt` / `decrypt` pair (login.go) -/

/-- Model of `encrypt` (login.go): a 16-byte IV is prefixed to the CFB
stream-cipher output and the result is base64-encoded with the URL-safe
alphabet. The fresh random IV is taken as an explicit argument. -/
def encryptModel (E : List Nat → List Nat) (iv p : List Nat) : List Char :=
  b64encode (iv ++ cfbEncryptBytes E iv p)

/-- Model of `decrypt` (login.go): base64-decode, fail when the payload is
shorter than one AES block (16 bytes), otherwise split off the IV and run
the CFB decrypter over the remainder. -/
def decryptModel (E : List Nat → List Nat) (ct : List Char) : Option (List Nat) :=
  (b64decode ct).bind fun bytes =>
    if bytes.length < 16 then none
    else some (cfbDecryptBytes E (bytes.take 16) (bytes.drop 16))

/-- A concrete stand-in for the AES block encryption under a fixed key,
used to instantiate theorems at concrete inputs. -/
def blockFix : List Nat → List Nat := fun _ => List.replicate 16 7

/-- A concrete 16-byte IV. -/
def ivFix : List Nat := List.replicate 16 9

/-- C4: for every printable-ASCII plaintext and a fixed vault key (abstracted
as the block-encryption function `E`), `decrypt (encrypt p) = p`: `encrypt`
prefixes the IV to the CFB stream-cipher output and base64-encodes it, and
`decrypt` inverts this exactly. -/
theorem encrypt_decrypt_roundtrip (E : List Nat → List Nat) (iv p : List Nat)
    (hE : ∀ r, (E r).length = 16)
    (hEb : ∀ r, ∀ b ∈ E r, b < 256)
    (hiv : iv.length = 16)
    (hivb : ∀ b ∈ iv, b < 256)
    (hp : ∀ b ∈ p, 32 ≤ b ∧ b ≤ 126) :
    decryptModel E (encryptModel E iv p) = some p := by
  have hpb : ∀ b ∈ p, b < 256 := fun b hb => by have := hp b hb; omega
  have hcb : ∀ b ∈ cfbEncryptBytes E iv p, b < 256 :=
    cfbEncryptAux_mem_lt E hEb p.length iv p hpb
  have hall : ∀ b ∈ iv ++ cfbEncryptBytes E iv p, b < 256 := by
    intro b hb
    rcases List.mem_append.mp hb with hb | hb
    · exact hivb b hb
    · exact hcb b hb
  have hlen : ¬ (iv ++ cfbEncryptBytes E iv p).length < 16 := by
    rw [List.length_append, hiv]
    omega
  unfold encryptModel decryptModel
  rw [b64_roundtrip _ hall, Option.some_bind, if_neg hlen,
    List.take_left' hiv, List.drop_left' hiv,
    cfb_bytes_roundtrip E hE iv p]

/-- C4 witness: the roundtrip evaluated at a concrete block function, IV and
printable plaintext "Hi" (bytes 72, 105). -/
theorem encrypt_decrypt_roundtrip_witness :
    decryptModel blockFix (encryptModel blockFix ivFix [72, 105]) = some [72, 105] :=
  encrypt_decrypt_roundtrip blockFix ivFix [72, 105]
    (fun _ => rfl)
    (fun _ b hb => by rw [List.eq_of_mem_replicate hb]; decide)
    rfl
    (fun b hb => by rw [List.eq_of_mem_replicate hb]; decide)
    (by decide)

/-- C8 counterexample: the claim says decrypt fails whenever the payload
remaining after the 16-byte IV is shorter than the IV length. Here a
ciphertext decoding to 20 bytes (4 bytes after the IV, fewer than 16)
nevertheless decrypts successfully. -/
theorem decrypt_short_remainder_succeeds :
    b64decode (List.replicate 27 'A' ++ ['=']) = some (List.replicate 20 0) ∧
    (List.replicate 20 0).length - 16 < 16 ∧
    decryptModel blockFix (List.replicate 27 'A' ++ ['=']) ≠ none := by decide

/-- C8 (amended): decrypt fails exactly when base64 decoding fails or the
whole decoded payload is shorter than the IV length (16 bytes); otherwise it
returns a plaintext whose length is the payload length minus 16. -/
theorem decrypt_error_characterization (E : List Nat → List Nat) (ct : List Char)
    (hE : ∀ r, (E r).length = 16) :
    (decryptModel E ct = none ↔
      b64decode ct = none ∨ ∃ bs, b64decode ct = some bs ∧ bs.length < 16) ∧
    (∀ bs, b64decode ct = some bs → 16 ≤ bs.length →
      ∃ pl, decryptModel E ct = some pl ∧ pl.length + 16 = bs.length) := by
  constructor
  · cases hd : b64decode ct with
    | none => simp [decryptModel, hd]
    | some bs =>
      by_cases hl : bs.length < 16
      · simp only [decryptModel, hd, Option.some_bind, if_pos hl]
        simp only [true_iff]
        exact Or.inr ⟨bs, rfl, hl⟩
      · simp only [decryptModel, hd, Option.some_bind, if_neg hl]
        constructor
        · intro habs
          exact absurd habs (by simp)
        · rintro (habs | ⟨bs2, hbs2, hlt⟩)
          · exact absurd habs (by simp)
          · rw [Option.some.injEq] at hbs2
            subst hbs2
            exact absurd hlt hl
  · intro bs hbs hge
    refine ⟨cfbDecryptBytes E (bs.take 16) (bs.drop 16), ?_, ?_⟩
    · simp [decryptModel, hbs, Nat.not_lt.mpr hge]
    · unfold cfbDecryptBytes
      rw [cfbDecryptAux_length E hE (bs.drop 16).length _ _ (Nat.le_refl _),
        List.length_drop]
      omega

/-- C8 amended witness: a 4-character ciphertext decodes to only 3 bytes, so
decrypt fails; a 32-byte payload decrypts to a 16-byte plaintext. -/
theorem decrypt_error_characterization_witness :
    decryptModel blockFix ['A', 'A', 'A', 'A'] = none ∧
    ∃ pl, decryptModel blockFix (List.replicate 43 'A' ++ ['=']) = some pl ∧
      pl.length + 16 = 32 :=
  ⟨(decrypt_error_characterization blockFix ['A', 'A', 'A', 'A']
      (fun _ => rfl)).1.mpr (Or.inr ⟨[0, 0, 0], by decide, by decide⟩),
   (decrypt_error_characterization blockFix (List.replicate 43 'A' ++ ['='])
      (fun _ => rfl)).2 (List.replicate 32 0) (by decide) (by decide)⟩

/-! ## saveCredentials (login.go): upsert into the per-environment user list -/

/-- The `UserCredentials` record stored in the user-cache tier. -/
structure UserCredentials where
  userid : String
  password : String
  token : String
deriving DecidableEq

/-- The update-or-append loop of `saveCredentials` (login.go): scan the
existing users; the first entry whose `userid` matches has its password and
token replaced and the scan stops; if no entry matches, a new record is
appended at the end. -/
def upsertUsers : List UserCredentials → String → String → String → List UserCredentials
  | [], uid, pw, tok => [⟨uid, pw, tok⟩]
  | u :: rest, uid, pw, tok =>
    if u.userid = uid then ⟨uid, pw, tok⟩ :: rest
    else u :: upsertUsers rest uid pw tok

theorem upsertUsers_length : ∀ (users : List UserCredentials) (uid pw tok : String),
    (upsertUsers users uid pw tok).length =
      (if users.any (fun u => u.userid = uid) then users.length else users.length + 1)
  | [], _, _, _ => by simp [upsertUsers]
  | u :: rest, uid, pw, tok => by
    by_cases h : u.userid = uid
    · simp [upsertUsers, h]
    · simp only [upsertUsers, if_neg h, List.any_cons, List.length_cons,
        upsertUsers_length rest uid pw tok]
      simp [h]
      split <;> rfl

theorem upsertUsers_any : ∀ (users : List UserCredentials) (uid pw tok : String),
    (upsertUsers users uid pw tok).any (fun u => u.userid = uid) = true
  | [], uid, _, _ => by simp [upsertUsers]
  | u :: rest, uid, pw, tok => by
    by_cases h : u.userid = uid
    · simp [upsertUsers, h]
    · simp [upsertUsers, h, upsertUsers_any rest uid pw tok]

theorem upsertUsers_mem : ∀ (users : List UserCredentials) (uid pw tok : String),
    (⟨uid, pw, tok⟩ : UserCredentials) ∈ upsertUsers users uid pw tok
  | [], _, _, _ => by simp [upsertUsers]
  | u :: rest, uid, pw, tok => by
    by_cases h : u.userid = uid
    · simp [upsertUsers, h]
    · simp [upsertUsers, h, upsertUsers_mem rest uid pw tok]

theorem upsertUsers_filter_other :
    ∀ (users : List UserCredentials) (uid pw tok : String),
    (upsertUsers users uid pw tok).filter (fun u => !(u.userid = uid)) =
      users.filter (fun u => !(u.userid = uid))
  | [], uid, pw, tok => by simp [upsertUsers]
  | u :: rest, uid, pw, tok => by
    by_cases h : u.userid = uid
    · simp [upsertUsers, h, List.filter_cons]
    · simp only [upsertUsers, if_neg h, List.filter_cons]
      rw [upsertUsers_filter_other rest uid pw tok]

/-- C5: persisting credentials inserts a new cached user only when no entry
with that userId exists (length grows by one exactly then), always leaves an
entry carrying the new password and token, leaves every other user's record
untouched, and repeating the upsert for the same user never grows the
per-environment user count. -/
theorem saveCredentials_upsert (users : List UserCredentials)
    (uid pw tok pw2 tok2 : String) :
    (upsertUsers users uid pw tok).length =
      (if users.any (fun u => u.userid = uid) then users.length
       else users.length + 1) ∧
    (⟨uid, pw, tok⟩ : UserCredentials) ∈ upsertUsers users uid pw tok ∧
    (upsertUsers users uid pw tok).filter (fun u => !(u.userid = uid)) =
      users.filter (fun u => !(u.userid = uid)) ∧
    (upsertUsers (upsertUsers users uid pw tok) uid pw2 tok2).length =
      (upsertUsers users uid pw tok).length := by
  refine ⟨upsertUsers_length users uid pw tok, upsertUsers_mem users uid pw tok,
    upsertUsers_filter_other users uid pw tok, ?_⟩
  rw [upsertUsers_length, upsertUsers_any]
  simp

/-! ## Interactive Selector: search filtering (login.go) -/

/-- A cached user entry as read from the user-cache tier during login
(`environments.<env>.users`): the password field holds the base64 text
produced by `encrypt`. -/
structure CachedUser where
  userid : String
  password : List Char
  token : String
deriving DecidableEq

/-- A workspace as returned by `fetchWorkspaces`. -/
structure Workspace where
  workspace_id : String
  name : String
deriving DecidableEq

/-- ASCII lower-casing of a character list (Go `strings.ToLower` on the
ASCII range used by the filter). -/
def lowerChars (s : List Char) : List Char := s.map Char.toLower

/-- Whether the first list occurs at the head of the second. -/
def leadsList : List Char → List Char → Bool
  | [], _ => true
  | _ :: _, [] => false
  | a :: as, b :: bs => a = b && leadsList as bs

/-- Go `strings.Contains`: the needle occurs somewhere in the haystack. -/
def containsSub (hay needle : List Char) : Bool :=
  (List.range (hay.length + 1)).any fun i => leadsList needle (hay.drop i)

/-- `filterUsers` (login.go): keep users whose lower-cased userid contains
the lower-cased search term. -/
def filterUsersM (users : List CachedUser) (term : String) : List CachedUser :=
  users.filter fun u => containsSub (lowerChars u.userid.data) (lowerChars term.data)

/-- `filterWorkspaces` (login.go): keep workspaces whose lower-cased name
contains the lower-cased search term. -/
def filterWorkspacesM (ws : List Workspace) (term : String) : List Workspace :=
  ws.filter fun w => containsSub (lowerChars w.name.data) (lowerChars term.data)

/-- The filter step at the top of the `promptUserSelection` loop: a non-empty
search term filters the users, but a filter with zero matches falls back to
the full list. -/
def applySearchFilterUsers (users : List CachedUser) (term : String) : List CachedUser :=
  if term ≠ "" then
    if filterUsersM users term = [] then users else filterUsersM users term
  else users

/-- The filter step at the top of the `selectWorkspaceOnly` loop. -/
def applySearchFilterWorkspaces (ws : List Workspace) (term : String) : List Workspace :=
  if term ≠ "" then
    if filterWorkspacesM ws term = [] then ws else filterWorkspacesM ws term
  else ws

/-- One pass of the selector's display/resolution state: the list shown and
resolved against, together with the (unchanged) search term. -/
def selectorFilterStepUsers (users : List CachedUser) (term : String) :
    List CachedUser × String :=
  (applySearchFilterUsers users term, term)

def selectorFilterStepWorkspaces (ws : List Workspace) (term : String) :
    List Workspace × String :=
  (applySearchFilterWorkspaces ws term, term)

/-- C9: when the case-insensitive substring filter matches zero items, both
selector variants display and resolve against the full unfiltered list and
the search term is kept. -/
theorem selector_empty_filter_shows_all (users : List CachedUser)
    (ws : List Workspace) (term term2 : String)
    (h1 : filterUsersM users term = [])
    (h2 : filterWorkspacesM ws term2 = []) :
    selectorFilterStepUsers users term = (users, term) ∧
    selectorFilterStepWorkspaces ws term2 = (ws, term2) := by
  constructor
  · unfold selectorFilterStepUsers applySearchFilterUsers
    rw [h1]
    simp
  · unfold selectorFilterStepWorkspaces applySearchFilterWorkspaces
    rw [h2]
    simp

/-- C9 witness: a term matching no user and no workspace leaves the full
lists in place. -/
theorem selector_empty_filter_shows_all_witness :
    selectorFilterStepUsers [⟨"alice", [], "t1"⟩] "zz" = ([⟨"alice", [], "t1"⟩], "zz") ∧
    selectorFilterStepWorkspaces [⟨"ws-1", "Alpha"⟩] "qq" = ([⟨"ws-1", "Alpha"⟩], "qq") :=
  selector_empty_filter_shows_all [⟨"alice", [], "t1"⟩] [⟨"ws-1", "Alpha"⟩]
    "zz" "qq" (by decide) (by decide)

/-! ## Layered config resolution (config.go `getToken`, login.go
`loadEnvironmentConfig`) -/

/-- The two configuration tiers, each a total map from environment name and
field name to a string value, where a missing field reads as `""` (viper's
`GetString` on an absent key). -/
structure TierPair where
  app : String → String → String
  cache : String → String → String

/-- `getToken` (config.go): read the token from the application tier; only
if it is empty, fall back to the user-cache tier; error when both are empty. -/
def getTokenM (t : TierPair) (env : String) : Except String String :=
  let tok := t.app env "token"
  let tok2 := if tok = "" then t.cache env "token" else tok
  if tok2 = "" then Except.error ("no token found for environment " ++ env)
  else Except.ok tok2

/-- `loadEnvironmentConfig` (login.go): iterate over the tiers in order
[app, cache]; the endpoint (`providedUrl`) is only assigned while still
empty, but a non-empty token overwrites the previous value on every
iteration. Returns the resulting (endpoint, token) pair. -/
def loadEnvConfigM (t : TierPair) (env url0 : String) : String × String :=
  let url1 := if url0 = "" then t.app env "endpoint" else url0
  let tok1 := if t.app env "token" ≠ "" then t.app env "token" else ""
  let url2 := if url1 = "" then t.cache env "endpoint" else url1
  let tok2 := if t.cache env "token" ≠ "" then t.cache env "token" else tok1
  (url2, tok2)

/-- A concrete tier pair with the token and endpoint set to different
non-empty values in both tiers. -/
def tierFix : TierPair where
  app := fun _ f => if f = "token" then "appTok"
    else if f = "endpoint" then "grpc://app" else ""
  cache := fun _ f => if f = "token" then "cacheTok"
    else if f = "endpoint" then "grpc://cache" else ""

/-- C3 counterexample: the token field is non-empty in both tiers, yet
`loadEnvironmentConfig` resolves it to the user-cache tier value, not the
application-tier value. -/
theorem loadEnvConfig_token_cache_wins :
    tierFix.app "e" "token" = "appTok" ∧
    tierFix.cache "e" "token" = "cacheTok" ∧
    (loadEnvConfigM tierFix "e" "").2 = "cacheTok" ∧
    "cacheTok" ≠ "appTok" := by decide

/-- C3 (amended): `getToken` and the endpoint resolution of
`loadEnvironmentConfig` search the tiers in the fixed order [application
tier, user-cache tier] with the first non-empty value winning; but the token
resolution inside `loadEnvironmentConfig` keeps the last non-empty value, so
the user-cache tier wins for the token field whenever it is non-empty there. -/
theorem config_tier_precedence (t : TierPair) (env : String)
    (hApp : t.app env "token" ≠ "")
    (hEp : t.app env "endpoint" ≠ "")
    (hCache : t.cache env "token" ≠ "") :
    getTokenM t env = Except.ok (t.app env "token") ∧
    (loadEnvConfigM t env "").1 = t.app env "endpoint" ∧
    (loadEnvConfigM t env "").2 = t.cache env "token" := by
  refine ⟨?_, ?_, ?_⟩
  · simp [getTokenM, hApp]
  · simp [loadEnvConfigM, hEp]
  · simp [loadEnvConfigM, hCache]

/-- C3 amended witness: the precedence evaluated on the concrete tiers. -/
theorem config_tier_precedence_witness :
    getTokenM tierFix "e" = Except.ok (tierFix.app "e" "token") ∧
    (loadEnvConfigM tierFix "e" "").1 = tierFix.app "e" "endpoint" ∧
    (loadEnvConfigM tierFix "e" "").2 = tierFix.cache "e" "token" :=
  config_tier_precedence tierFix "e" (by decide) (by decide) (by decide)

/-! ## saveAppToken (login.go): app-token persistence frame -/

/-- The per-environment settings map touched by `saveAppToken`. -/
structure EnvSettings where
  endpoint : Option String
  proxy : Option Bool
  tokens : List String
deriving DecidableEq

def emptyEnvSettings : EnvSettings := ⟨none, none, []⟩

def lookupEnv : List (String × EnvSettings) → String → Option EnvSettings
  | [], _ => none
  | (k, v) :: rest, env => if k = env then some v else lookupEnv rest env

/-- viper `GetStringMap` on `environments.<env>`: missing environments read
as an empty settings map. -/
def getEnvD (cfg : List (String × EnvSettings)) (env : String) : EnvSettings :=
  (lookupEnv cfg env).getD emptyEnvSettings

/-- viper `Set` on `environments.<env>`: replace that environment's entry,
or append it when absent. -/
def setEnv : List (String × EnvSettings) → String → EnvSettings → List (String × EnvSettings)
  | [], env, s => [(env, s)]
  | (k, v) :: rest, env, s =>
    if k = env then (env, s) :: rest else (k, v) :: setEnv rest env s

/-- The token de-duplication loop of `saveAppToken`: append only when no
identical token already exists. -/
def addAppToken (tokens : List String) (t : String) : List String :=
  if tokens.any (fun x => x = t) then tokens else tokens ++ [t]

/-- `saveAppToken` (login.go): rebuild the environment's token list with the
new token added (if absent), keeping the endpoint and proxy fields. -/
def saveAppTokenM (cfg : List (String × EnvSettings)) (env t : String) :
    List (String × EnvSettings) :=
  let s := getEnvD cfg env
  setEnv cfg env { s with tokens := addAppToken s.tokens t }

theorem lookupEnv_setEnv_same : ∀ (cfg : List (String × EnvSettings))
    (env : String) (s : EnvSettings), lookupEnv (setEnv cfg env s) env = some s
  | [], env, s => by simp [setEnv, lookupEnv]
  | (k, v) :: rest, env, s => by
    by_cases h : k = env
    · simp [setEnv, h, lookupEnv]
    · simp [setEnv, h, lookupEnv, lookupEnv_setEnv_same rest env s]

theorem lookupEnv_setEnv_other : ∀ (cfg : List (String × EnvSettings))
    (env env' : String) (s : EnvSettings), env' ≠ env →
    lookupEnv (setEnv cfg env s) env' = lookupEnv cfg env'
  | [], env, env', s, h => by simp [setEnv, lookupEnv, Ne.symm h]
  | (k, v) :: rest, env, env', s, h => by
    by_cases hk : k = env
    · subst hk
      simp only [setEnv, if_pos rfl, lookupEnv]
      rw [if_neg (Ne.symm h), if_neg (Ne.symm h)]
    · simp only [setEnv, if_neg hk, lookupEnv]
      by_cases hk' : k = env'
      · simp [hk']
      · simp [hk', lookupEnv_setEnv_other rest env env' s h]

/-- C10: saving an app token leaves every other environment untouched and,
for the targeted environment, changes only the token list — the endpoint and
proxy fields are preserved, and the token list is only ever extended by
appending a token that was not already present. -/
theorem saveAppToken_frame (cfg : List (String × EnvSettings)) (env env' t : String)
    (h : env' ≠ env) :
    lookupEnv (saveAppTokenM cfg env t) env' = lookupEnv cfg env' ∧
    (getEnvD (saveAppTokenM cfg env t) env).endpoint = (getEnvD cfg env).endpoint ∧
    (getEnvD (saveAppTokenM cfg env t) env).proxy = (getEnvD cfg env).proxy ∧
    (getEnvD (saveAppTokenM cfg env t) env).tokens =
      (if (getEnvD cfg env).tokens.any (fun x => x = t)
       then (getEnvD cfg env).tokens else (getEnvD cfg env).tokens ++ [t]) := by
  refine ⟨?_, ?_, ?_, ?_⟩
  · unfold saveAppTokenM
    exact lookupEnv_setEnv_other cfg env env' _ h
  · unfold saveAppTokenM getEnvD
    rw [lookupEnv_setEnv_same]
    simp [addAppToken]
  · unfold saveAppTokenM getEnvD
    rw [lookupEnv_setEnv_same]
    simp [addAppToken]
  · unfold saveAppTokenM getEnvD
    rw [lookupEnv_setEnv_same]
    simp [addAppToken]

/-- C10 witness: the frame property evaluated on a concrete configuration. -/
theorem saveAppToken_frame_witness :
    lookupEnv (saveAppTokenM [("e1", ⟨some "ep", some true, ["t0"]⟩)] "e1" "t1") "e2" =
      lookupEnv [("e1", ⟨some "ep", some true, ["t0"]⟩)] "e2" ∧
    (getEnvD (saveAppTokenM [("e1", ⟨some "ep", some true, ["t0"]⟩)] "e1" "t1") "e1").endpoint =
      (getEnvD [("e1", ⟨some "ep", some true, ["t0"]⟩)] "e1").endpoint ∧
    (getEnvD (saveAppTokenM [("e1", ⟨some "ep", some true, ["t0"]⟩)] "e1" "t1") "e1").proxy =
      (getEnvD [("e1", ⟨some "ep", some true, ["t0"]⟩)] "e1").proxy ∧
    (getEnvD (saveAppTokenM [("e1", ⟨some "ep", some true, ["t0"]⟩)] "e1" "t1") "e1").tokens =
      (if (getEnvD [("e1", ⟨some "ep", some true, ["t0"]⟩)] "e1").tokens.any (fun x => x = "t1")
       then (getEnvD [("e1", ⟨some "ep", some true, ["t0"]⟩)] "e1").tokens
       else (getEnvD [("e1", ⟨some "ep", some true, ["t0"]⟩)] "e1").tokens ++ ["t1"]) :=
  saveAppToken_frame [("e1", ⟨some "ep", some true, ["t0"]⟩)] "e1" "e2" "t1" (by decide)

/-! ## The user-login orchestration (`executeUserLogin`, login.go)

The remote RPC calls of one login attempt are each made at most once, so
the gateway is modelled as a record of per-call outcomes. The run returns a
terminal result together with a trace of the observable events: RPC calls
(recorded when the call is made, before its outcome is inspected), prompts,
and the final `saveCredentials` persistence. `os.Exit(1)` paths become
failure results. -/

/-- Go `strings.Split(s, "-")` on a character list. -/
def splitDash : List Char → List (List Char)
  | [] => [[]]
  | c :: rest =>
    let r := splitDash rest
    if c = '-' then [] :: r
    else
      match r with
      | [] => [[c]]
      | h :: t => (c :: h) :: t

inductive Event where
  | promptedFreshCredentials : Event
  | promptedPassword : Event
  | rpcResolveDomain (name : String) : Event
  | rpcIssueToken (userId domainId : String) : Event
  | rpcListWorkspaces : Event
  | rpcWhoAmI : Event
  | rpcGrantToken (token scope domainId workspaceId : String) : Event
  | saveCreds (env userId encryptedPassword token : String) : Event
deriving DecidableEq

inductive LoginResult where
  | done : LoginResult
  | failedNoEndpoint : LoginResult
  | failedDecrypt : LoginResult
  | failedPasswordMismatch : LoginResult
  | failedInvalidEnvName : LoginResult
  | failedNoWorkspace : LoginResult
  | failedUnknownRole : LoginResult
  | failedRpc (msg : String) : LoginResult
deriving DecidableEq

def isRpcEv : Event → Bool
  | .rpcResolveDomain _ => true
  | .rpcIssueToken _ _ => true
  | .rpcListWorkspaces => true
  | .rpcWhoAmI => true
  | .rpcGrantToken _ _ _ _ => true
  | _ => false

def isResolveEv : Event → Bool
  | .rpcResolveDomain _ => true
  | _ => false

def isGrantEv : Event → Bool
  | .rpcGrantToken _ _ _ _ => true
  | _ => false

def isWhoAmIEv : Event → Bool
  | .rpcWhoAmI => true
  | _ => false

def isSaveEv : Event → Bool
  | .saveCreds _ _ _ _ => true
  | _ => false

def isFreshPromptEv : Event → Bool
  | .promptedFreshCredentials => true
  | _ => false

/-- The interactive inputs a login run may consume: the account picked in
the user selector (1-based; `users.length + 1` selects "add new user"), the
password typed at the expired-token re-prompt, and the fresh credentials. -/
structure UserInputs where
  selection : Nat
  promptedPassword : List Nat
  freshUserId : String
  freshPassword : List Nat

/-- Per-call outcomes of the RPC gateway for one login attempt:
`resolveDomain` (fetchDomainID), `issueToken`, `listWorkspaces`
(fetchWorkspaces), `whoAmI` (fetchDomainIDAndRole) and `grantToken`. -/
structure OracleSpec where
  resolveDomainR : Except String String
  issueTokenR : Except String (String × String)
  listWorkspacesR : Except String (List Workspace)
  whoAmIR : Except String (String × String)
  grantTokenR : Except String String

/-- `determineScope` (login.go): DOMAIN for DOMAIN_ADMIN, WORKSPACE for the
other known roles, and a fatal error (`none`) for anything else. -/
def determineScopeM (roleType : String) : Option String :=
  if roleType = "DOMAIN_ADMIN" then some "DOMAIN"
  else if roleType = "WORKSPACE_OWNER" ∨ roleType = "WORKSPACE_MEMBER" ∨
      roleType = "USER" then some "WORKSPACE"
  else none

/-- The workspace id returned by the workspace selector for a given choice. -/
def selectWsId (ws : List Workspace) (choice : Nat) : String :=
  match ws.get? choice with
  | some w => w.workspace_id
  | none => ""

/-- Credential acquisition (login.go:292-353): reuse a cached account
(decrypting its stored password, re-prompting first when its token has
expired), or prompt for fresh credentials when no usable cache entry exists
or "add new user" is selected. A decrypt failure or a password mismatch is
fatal (`Except.error`). -/
def credentialAcquisition (E : List Nat → List Nat)
    (cacheUsers : Option (List CachedUser)) (tokenExpired : String → Bool)
    (inp : UserInputs) :
    Except LoginResult (String × List Nat) × List Event :=
  match cacheUsers with
  | none => (Except.ok (inp.freshUserId, inp.freshPassword), [.promptedFreshCredentials])
  | some users =>
    if users.length = 0 then
      (Except.ok (inp.freshUserId, inp.freshPassword), [.promptedFreshCredentials])
    else if inp.selection ≤ users.length then
      match users.get? (inp.selection - 1) with
      | none =>
        (Except.ok (inp.freshUserId, inp.freshPassword), [.promptedFreshCredentials])
      | some u =>
        if tokenExpired u.token then
          match decryptModel E u.password with
          | none => (Except.error .failedDecrypt, [.promptedPassword])
          | some dp =>
            if inp.promptedPassword = dp then
              (Except.ok (u.userid, inp.promptedPassword), [.promptedPassword])
            else (Except.error .failedPasswordMismatch, [.promptedPassword])
        else
          match decryptModel E u.password with
          | none => (Except.error .failedDecrypt, [])
          | some pw => (Except.ok (u.userid, pw), [])
    else
      (Except.ok (inp.freshUserId, inp.freshPassword), [.promptedFreshCredentials])

/-- The tail of `executeUserLogin` after the workspaces have been obtained:
whoAmI, scope/workspace resolution, grantToken and persistence. -/
def loginAfterWorkspaces (o : OracleSpec) (env userID encPw refreshToken : String)
    (workspaces : List Workspace) (domChoice : Bool) (wsChoice : Nat)
    (evs : List Event) : LoginResult × List Event :=
  let evs4 := evs ++ [.rpcWhoAmI]
  match o.whoAmIR with
  | .error e => (.failedRpc e, evs4)
  | .ok (domainID2, roleType) =>
    match determineScopeM roleType with
    | none => (.failedUnknownRole, evs4)
    | some _ =>
      let sw : String × String :=
        if roleType = "DOMAIN_ADMIN" then
          if domChoice then ("DOMAIN", "")
          else ("WORKSPACE", selectWsId workspaces wsChoice)
        else ("WORKSPACE", selectWsId workspaces wsChoice)
      let evs5 := evs4 ++ [.rpcGrantToken refreshToken sw.1 domainID2 sw.2]
      match o.grantTokenR with
      | .error e => (.failedRpc e, evs5)
      | .ok newTok => (.done, evs5 ++ [.saveCreds env userID encPw newTok])

/-- `executeUserLogin` (login.go:269-433): endpoint check, credential
acquisition, environment-name split, resolveDomain, issueToken, password
encryption, fetchWorkspaces (an RPC error here is only reported — the run
continues with an empty workspace list, while a successful empty result is
fatal inside `fetchWorkspaces`), whoAmI, scope/workspace selection,
grantToken, saveCredentials. -/
def executeUserLoginM (E : List Nat → List Nat) (iv : List Nat)
    (url env : String) (cacheUsers : Option (List CachedUser))
    (tokenExpired : String → Bool) (inp : UserInputs) (o : OracleSpec)
    (domChoice : Bool) (wsChoice : Nat) : LoginResult × List Event :=
  if url = "" then (.failedNoEndpoint, [])
  else
    match credentialAcquisition E cacheUsers tokenExpired inp with
    | (.error r, evs) => (r, evs)
    | (.ok (userID, password), evs0) =>
      let parts := splitDash env.data
      if parts.length < 3 then (.failedInvalidEnvName, evs0)
      else
        let name := String.mk (parts.getD 1 [])
        let evs1 := evs0 ++ [.rpcResolveDomain name]
        match o.resolveDomainR with
        | .error e => (.failedRpc e, evs1)
        | .ok domainID =>
          let evs2 := evs1 ++ [.rpcIssueToken userID domainID]
          match o.issueTokenR with
          | .error e => (.failedRpc e, evs2)
          | .ok (_accessToken, refreshToken) =>
            let encPw := String.mk (encryptModel E iv password)
            let evs3 := evs2 ++ [.rpcListWorkspaces]
            match o.listWorkspacesR with
            | .ok [] => (.failedNoWorkspace, evs3)
            | .ok (w :: ws) =>
              loginAfterWorkspaces o env userID encPw refreshToken (w :: ws)
                domChoice wsChoice evs3
            | .error _ =>
              loginAfterWorkspaces o env userID encPw refreshToken []
                domChoice wsChoice evs3

theorem credentialAcquisition_events (E : List Nat → List Nat)
    (cacheUsers : Option (List CachedUser)) (tokenExpired : String → Bool)
    (inp : UserInputs) :
    ∀ x ∈ (credentialAcquisition E cacheUsers tokenExpired inp).2,
      x = Event.promptedFreshCredentials ∨ x = Event.promptedPassword := by
  intro x hx
  cases cacheUsers with
  | none =>
    simp only [credentialAcquisition, List.mem_singleton] at hx
    exact Or.inl hx
  | some users =>
    simp only [credentialAcquisition] at hx
    split at hx
    · simp only [List.mem_singleton] at hx
      exact Or.inl hx
    · split at hx
      · split at hx
        · simp only [List.mem_singleton] at hx
          exact Or.inl hx
        · split at hx
          · split at hx
            · simp only [List.mem_singleton] at hx
              exact Or.inr hx
            · split at hx
              · simp only [List.mem_singleton] at hx
                exact Or.inr hx
              · simp only [List.mem_singleton] at hx
                exact Or.inr hx
          · split at hx
            · simp at hx
            · simp at hx
      · simp only [List.mem_singleton] at hx
        exact Or.inl hx

theorem credentialAcquisition_filter_eq_nil (E : List Nat → List Nat)
    (cacheUsers : Option (List CachedUser)) (tokenExpired : String → Bool)
    (inp : UserInputs) (p : Event → Bool)
    (hf : p Event.promptedFreshCredentials = false)
    (hp : p Event.promptedPassword = false) :
    ((credentialAcquisition E cacheUsers tokenExpired inp).2).filter p = [] := by
  rw [List.filter_eq_nil_iff]
  intro x hx
  rcases credentialAcquisition_events E cacheUsers tokenExpired inp x hx with h | h
  · simp [h, hf]
  · simp [h, hp]

theorem loginAfterWorkspaces_filter (o : OracleSpec)
    (env userID encPw refreshToken : String) (workspaces : List Workspace)
    (domChoice : Bool) (wsChoice : Nat) (evs : List Event) (p : Event → Bool)
    (hw : p Event.rpcWhoAmI = false)
    (hg : ∀ t s d w, p (Event.rpcGrantToken t s d w) = false)
    (hs : ∀ a b c d, p (Event.saveCreds a b c d) = false) :
    ((loginAfterWorkspaces o env userID encPw refreshToken workspaces domChoice
        wsChoice evs).2).filter p = evs.filter p := by
  unfold loginAfterWorkspaces
  split
  · simp [List.filter_append, hw]
  · split
    · simp [List.filter_append, hw]
    · repeat' split
      all_goals simp [List.filter_append, hw, hg, hs]

/-- A gateway oracle where every call succeeds. -/
def oracleFix : OracleSpec :=
  ⟨Except.ok "domain-1", Except.ok ("acc-token", "ref-token"),
   Except.ok [⟨"ws-1", "Alpha"⟩], Except.ok ("domain-1", "WORKSPACE_OWNER"),
   Except.ok "granted-token"⟩

/-- A gateway oracle where only the listWorkspaces RPC fails. -/
def oracleWsFail : OracleSpec :=
  ⟨Except.ok "domain-1", Except.ok ("acc-token", "ref-token"),
   Except.error "RPC failed: network down", Except.ok ("domain-1", "DOMAIN_ADMIN"),
   Except.ok "granted-token"⟩

/-- A gateway oracle where listWorkspaces succeeds with zero items. -/
def oracleNoWs : OracleSpec :=
  ⟨Except.ok "domain-1", Except.ok ("acc-token", "ref-token"),
   Except.ok [], Except.ok ("domain-1", "WORKSPACE_OWNER"),
   Except.ok "granted-token"⟩

/-- Interactive inputs that enter fresh credentials alice/"a". -/
def inputsFresh : UserInputs := ⟨1, [], "alice", [97]⟩

/-- C1 (amended): when the cached user selected during credential
acquisition has a stored password that fails to decrypt, the login aborts
with a decrypt error, without prompting for fresh credentials and before any
remote call — it does not degrade to a fresh-credential prompt. -/
theorem cached_decrypt_failure_aborts (E : List Nat → List Nat) (iv : List Nat)
    (url env : String) (users : List CachedUser) (tokenExpired : String → Bool)
    (inp : UserInputs) (o : OracleSpec) (domChoice : Bool) (wsChoice : Nat)
    (u : CachedUser)
    (hurl : url ≠ "")
    (husers : users ≠ [])
    (hsel : inp.selection ≤ users.length)
    (hget : users.get? (inp.selection - 1) = some u)
    (hdec : decryptModel E u.password = none) :
    (executeUserLoginM E iv url env (some users) tokenExpired inp o domChoice
        wsChoice).1 = LoginResult.failedDecrypt ∧
    ((executeUserLoginM E iv url env (some users) tokenExpired inp o domChoice
        wsChoice).2).filter isFreshPromptEv = [] ∧
    ((executeUserLoginM E iv url env (some users) tokenExpired inp o domChoice
        wsChoice).2).filter isRpcEv = [] := by
  have hlen : ¬users.length = 0 := fun h0 => husers (List.length_eq_zero.mp h0)
  have hcred : credentialAcquisition E (some users) tokenExpired inp =
      (Except.error LoginResult.failedDecrypt,
        if tokenExpired u.token then [Event.promptedPassword] else []) := by
    simp only [credentialAcquisition, if_neg hlen, if_pos hsel, hget]
    by_cases hexp : tokenExpired u.token <;> simp [hexp, hdec]
  by_cases hexp : tokenExpired u.token <;>
    simp [executeUserLoginM, if_neg hurl, hcred, hexp, isFreshPromptEv, isRpcEv]

/-- C1 counterexample: a concrete cached user whose stored password is not
valid base64; the selected user's decrypt fails and the flow aborts with a
decrypt error instead of degrading to a fresh credential prompt. -/
theorem cached_decrypt_failure_concrete :
    decryptModel blockFix ['!', '!'] = none ∧
    (executeUserLoginM blockFix ivFix "grpc://x" "dev-acme-user"
        (some [⟨"alice", ['!', '!'], "tok"⟩]) (fun _ => false)
        ⟨1, [], "bob", [98]⟩ oracleFix true 0).1 = LoginResult.failedDecrypt ∧
    ((executeUserLoginM blockFix ivFix "grpc://x" "dev-acme-user"
        (some [⟨"alice", ['!', '!'], "tok"⟩]) (fun _ => false)
        ⟨1, [], "bob", [98]⟩ oracleFix true 0).2).filter isFreshPromptEv = [] := by
  decide

/-- C1 amended witness: the abort behaviour at the same concrete input,
obtained by instantiating the general theorem. -/
theorem cached_decrypt_failure_aborts_witness :
    (executeUserLoginM blockFix ivFix "grpc://x" "dev-acme-user"
        (some [⟨"carol", ['?'], "tok"⟩]) (fun _ => true)
        ⟨1, [], "bob", [98]⟩ oracleFix true 0).1 = LoginResult.failedDecrypt ∧
    ((executeUserLoginM blockFix ivFix "grpc://x" "dev-acme-user"
        (some [⟨"carol", ['?'], "tok"⟩]) (fun _ => true)
        ⟨1, [], "bob", [98]⟩ oracleFix true 0).2).filter isFreshPromptEv = [] ∧
    ((executeUserLoginM blockFix ivFix "grpc://x" "dev-acme-user"
        (some [⟨"carol", ['?'], "tok"⟩]) (fun _ => true)
        ⟨1, [], "bob", [98]⟩ oracleFix true 0).2).filter isRpcEv = [] :=
  cached_decrypt_failure_aborts blockFix ivFix "grpc://x" "dev-acme-user"
    [⟨"carol", ['?'], "tok"⟩] (fun _ => true) ⟨1, [], "bob", [98]⟩ oracleFix
    true 0 ⟨"carol", ['?'], "tok"⟩ (by decide) (by decide) (by decide)
    (by decide) (by decide)

/-- C2: evaluation of the login run at the failing input — the
listWorkspaces RPC fails, yet the run completes (`done`) and credentials are
persisted, contradicting the claim that any RPC failure reaches the Failed
state with nothing persisted. -/
theorem listWorkspaces_failure_continues_and_persists :
    oracleWsFail.listWorkspacesR = Except.error "RPC failed: network down" ∧
    (executeUserLoginM blockFix ivFix "grpc://x" "dev-acme-user" none
        (fun _ => false) inputsFresh oracleWsFail true 0).1 = LoginResult.done ∧
    ((executeUserLoginM blockFix ivFix "grpc://x" "dev-acme-user" none
        (fun _ => false) inputsFresh oracleWsFail true 0).2).filter isSaveEv ≠ [] :=
  ⟨rfl, by decide, by decide⟩

/-- C6: the login splits the current environment name on '-'; with fewer
than 3 segments it fails with the invalid-environment-name error before any
remote call; with at least 3 segments the resolveDomain RPC is called
exactly once, with exactly segment 1 of the split. -/
theorem envname_split_resolveDomain (E : List Nat → List Nat) (iv : List Nat)
    (url env : String) (cacheUsers : Option (List CachedUser))
    (tokenExpired : String → Bool) (inp : UserInputs) (o : OracleSpec)
    (domChoice : Bool) (wsChoice : Nat) (uid : String) (pw : List Nat)
    (evs0 : List Event)
    (hurl : url ≠ "")
    (hcred : credentialAcquisition E cacheUsers tokenExpired inp =
      (Except.ok (uid, pw), evs0)) :
    ((splitDash env.data).length < 3 →
      (executeUserLoginM E iv url env cacheUsers tokenExpired inp o domChoice
          wsChoice).1 = LoginResult.failedInvalidEnvName ∧
      ((executeUserLoginM E iv url env cacheUsers tokenExpired inp o domChoice
          wsChoice).2).filter isRpcEv = []) ∧
    (3 ≤ (splitDash env.data).length →
      ((executeUserLoginM E iv url env cacheUsers tokenExpired inp o domChoice
          wsChoice).2).filter isResolveEv =
        [Event.rpcResolveDomain (String.mk ((splitDash env.data).getD 1 []))]) := by
  have hevs0 : ∀ p : Event → Bool, p Event.promptedFreshCredentials = false →
      p Event.promptedPassword = false → evs0.filter p = [] := by
    intro p h1 h2
    have h := credentialAcquisition_filter_eq_nil E cacheUsers tokenExpired inp p h1 h2
    rw [hcred] at h
    exact h
  constructor
  · intro hlt
    simp only [executeUserLoginM, if_neg hurl, hcred, if_pos hlt]
    exact ⟨trivial, hevs0 isRpcEv rfl rfl⟩
  · intro hge
    simp only [executeUserLoginM, if_neg hurl, hcred, if_neg (Nat.not_lt.mpr hge)]
    repeat' split
    all_goals
      try rw [loginAfterWorkspaces_filter _ _ _ _ _ _ _ _ _ isResolveEv rfl
        (fun _ _ _ _ => rfl) (fun _ _ _ _ => rfl)]
    all_goals simp [List.filter_append, hevs0 isResolveEv rfl rfl, isResolveEv]

/-- C6 witness: "dev-acme-user" leads to a single resolveDomain call with
"acme"; the single-segment name "prod" fails with the invalid-name error
before any remote call. -/
theorem envname_split_resolveDomain_witness :
    (((executeUserLoginM blockFix ivFix "grpc://x" "dev-acme-user" none
        (fun _ => false) inputsFresh oracleFix true 0).2).filter isResolveEv =
      [Event.rpcResolveDomain (String.mk ((splitDash "dev-acme-user".data).getD 1 []))]) ∧
    ((executeUserLoginM blockFix ivFix "grpc://x" "prod" none
        (fun _ => false) inputsFresh oracleFix true 0).1 =
      LoginResult.failedInvalidEnvName) ∧
    (((executeUserLoginM blockFix ivFix "grpc://x" "prod" none
        (fun _ => false) inputsFresh oracleFix true 0).2).filter isRpcEv = []) ∧
    String.mk ((splitDash "dev-acme-user".data).getD 1 []) = "acme" :=
  ⟨(envname_split_resolveDomain blockFix ivFix "grpc://x" "dev-acme-user" none
      (fun _ => false) inputsFresh oracleFix true 0 "alice" [97]
      [Event.promptedFreshCredentials] (by decide) rfl).2 (by decide),
   ((envname_split_resolveDomain blockFix ivFix "grpc://x" "prod" none
      (fun _ => false) inputsFresh oracleFix true 0 "alice" [97]
      [Event.promptedFreshCredentials] (by decide) rfl).1 (by decide)).1,
   ((envname_split_resolveDomain blockFix ivFix "grpc://x" "prod" none
      (fun _ => false) inputsFresh oracleFix true 0 "alice" [97]
      [Event.promptedFreshCredentials] (by decide) rfl).1 (by decide)).2,
   by decide⟩

/-- C7: when listWorkspaces succeeds with zero items, the run terminates
with the no-accessible-workspace failure and makes no further remote calls —
in particular whoAmI and grantToken are never called and nothing is
persisted. -/
theorem empty_workspaces_fails_no_grant (E : List Nat → List Nat) (iv : List Nat)
    (url env : String) (cacheUsers : Option (List CachedUser))
    (tokenExpired : String → Bool) (inp : UserInputs) (o : OracleSpec)
    (domChoice : Bool) (wsChoice : Nat) (uid d a r : String) (pw : List Nat)
    (evs0 : List Event)
    (hurl : url ≠ "")
    (hcred : credentialAcquisition E cacheUsers tokenExpired inp =
      (Except.ok (uid, pw), evs0))
    (hparts : 3 ≤ (splitDash env.data).length)
    (hres : o.resolveDomainR = Except.ok d)
    (hiss : o.issueTokenR = Except.ok (a, r))
    (hws : o.listWorkspacesR = Except.ok []) :
    (executeUserLoginM E iv url env cacheUsers tokenExpired inp o domChoice
        wsChoice).1 = LoginResult.failedNoWorkspace ∧
    ((executeUserLoginM E iv url env cacheUsers tokenExpired inp o domChoice
        wsChoice).2).filter isWhoAmIEv = [] ∧
    ((executeUserLoginM E iv url env cacheUsers tokenExpired inp o domChoice
        wsChoice).2).filter isGrantEv = [] ∧
    ((executeUserLoginM E iv url env cacheUsers tokenExpired inp o domChoice
        wsChoice).2).filter isSaveEv = [] := by
  have hevs0 : ∀ p : Event → Bool, p Event.promptedFreshCredentials = false →
      p Event.promptedPassword = false → evs0.filter p = [] := by
    intro p h1 h2
    have h := credentialAcquisition_filter_eq_nil E cacheUsers tokenExpired inp p h1 h2
    rw [hcred] at h
    exact h
  simp only [executeUserLoginM, if_neg hurl, hcred, if_neg (Nat.not_lt.mpr hparts),
    hres, hiss, hws]
  refine ⟨trivial, ?_, ?_, ?_⟩ <;>
    simp [List.filter_append, hevs0 isWhoAmIEv rfl rfl, hevs0 isGrantEv rfl rfl,
      hevs0 isSaveEv rfl rfl, isWhoAmIEv, isGrantEv, isSaveEv]

/-- C7 witness: the empty-workspace failure at a concrete input. -/
theorem empty_workspaces_fails_no_grant_witness :
    (executeUserLoginM blockFix ivFix "grpc://x" "dev-acme-user" none
        (fun _ => false) inputsFresh oracleNoWs true 0).1 =
      LoginResult.failedNoWorkspace ∧
    ((executeUserLoginM blockFix ivFix "grpc://x" "dev-acme-user" none
        (fun _ => false) inputsFresh oracleNoWs true 0).2).filter isWhoAmIEv = [] ∧
    ((executeUserLoginM blockFix ivFix "grpc://x" "dev-acme-user" none
        (fun _ => false) inputsFresh oracleNoWs true 0).2).filter isGrantEv = [] ∧
    ((executeUserLoginM blockFix ivFix "grpc://x" "dev-acme-user" none
        (fun _ => false) inputsFresh oracleNoWs true 0).2).filter isSaveEv = [] :=
  empty_workspaces_fails_no_grant blockFix ivFix "grpc://x" "dev-acme-user" none
    (fun _ => false) inputsFresh oracleNoWs true 0 "alice" "domain-1"
    "acc-token" "ref-token" [97] [Event.promptedFreshCredentials]
    (by decide) rfl (by decide) rfl rfl rfl
